import Mathlib

/-!
# Verification of the power-grid-balance ingestion pipeline

Shallow embedding of the backend's ingestion pipeline:

* `reeApiService.ts` — retrying remote fetch (`fetchElectricBalance`),
  `REEApiError`;
* `databaseService.ts` — payload validation and idempotent upsert into
  storage (`storeREEData` and its helpers `_upsertPowerGridBalance`,
  `_filterValidCategories`, `_upsertCategorySourcesAndValues`,
  `_upsertEnergyValues`, `cleanupOldData`), `DatabaseError`;
* `schedulerService.ts` — two-state scheduler (`start`/`stop`/`getStatus`),
  job bodies (`fetchCurrentData`, `fetchPreviousData`, `fetchHistoricalData`),
  error swallowing (`handleFetchError`) and `manualFetch`;
* the Prisma schema's natural-key uniqueness constraints and cascade
  deletes (`schema.prisma`).

Timestamps (`Date` values) are modelled as integers (milliseconds),
numeric payload fields as integers, and MongoDB ObjectIds as a `Nat`
counter threaded through the store state.  JavaScript truthiness of
optional string fields (`undefined`/`null`/`""` are falsy) is modelled
by `truthy`; `Date` objects are always truthy in JavaScript, so for
optional dates the code's truthiness checks are `Option.isSome`.
-/

set_option autoImplicit false

namespace PowerGrid

/-- JavaScript truthiness of an optional string field: `undefined`, `null`
and the empty string are falsy. -/
def truthy : Option String → Bool
  | none => false
  | some s => s ≠ ""

/-- Milliseconds per day, used to model `startOfDay` and `setDate` arithmetic. -/
def msPerDay : Int := 86400000

/-- Model of date-fns `startOfDay`: floor a timestamp to the start of its day. -/
def startOfDay (t : Int) : Int := msPerDay * (t.ediv msPerDay)

/-! ## Raw payload model (zod schemas in `reeApiService.ts`)

All fields the zod schemas mark `.optional()` are `Option`s; the parsed
`"last-update"`/`datetime`/`expireAt` dates are `Option Int`. -/

/-- One raw time-series point (`EnergyValueSchema`). -/
structure EnergyValue where
  value : Option Int
  percentage : Option Int
  datetime : Option Int
  deriving Repr, DecidableEq

/-- Attributes of a source fragment (`EnergySourceSchema.attributes`). -/
structure SourceAttributes where
  title : Option String
  description : Option String
  color : Option String
  icon : Option String
  magnitude : Option String
  composite : Option Bool
  lastUpdate : Option Int
  values : List EnergyValue
  total : Option Int
  totalPercentage : Option Int
  deriving Repr, DecidableEq

/-- A source-shaped fragment (`EnergySourceSchema`). -/
structure EnergySource where
  type : Option String
  id : Option String
  groupId : Option String
  attributes : Option SourceAttributes
  deriving Repr, DecidableEq

/-- The `content` field of an included fragment's attributes: absent,
present but not an array, or an array of source fragments
(`_filterValidCategories` distinguishes all three). -/
inductive ContentField where
  | absent
  | nonArray
  | arr (sources : List EnergySource)
  deriving Repr, DecidableEq

/-- Attributes of a fragment of the payload's `included` list
(`EnergyCategorySchema.attributes`, kept loose enough for the catch-all
branch of `REEIncludedItemSchema`). -/
structure IncludedAttributes where
  title : Option String
  lastUpdate : Option Int
  description : Option String
  content : ContentField
  deriving Repr, DecidableEq

/-- One fragment of the payload's flat `included` list. -/
structure IncludedItem where
  type : Option String
  id : Option String
  attributes : Option IncludedAttributes
  deriving Repr, DecidableEq

/-- `data.meta["cache-control"]`. -/
structure CacheControl where
  cache : Option String
  expireAt : Option Int
  deriving Repr, DecidableEq

/-- `data.attributes` of the top-level balance object. -/
structure BalanceAttributes where
  title : Option String
  lastUpdate : Option Int
  description : Option String
  deriving Repr, DecidableEq

/-- The top-level `data` object of the payload. -/
structure BalanceData where
  type : Option String
  id : Option String
  attributes : Option BalanceAttributes
  cacheControl : Option CacheControl
  deriving Repr, DecidableEq

/-- The parsed REE API response (`REEApiResponseSchema`). -/
structure REEApiResponse where
  data : Option BalanceData
  included : List IncludedItem
  deriving Repr, DecidableEq

/-! ## Stored rows (Prisma models in `schema.prisma`)

`oid` stands for the Mongo `_id` ObjectId; fresh ids are drawn from a
counter in the store state. -/

/-- A `power_grid_balances` row (`PowerGridBalance`). -/
structure BalanceRow where
  oid : Nat
  balanceId : String
  balanceDate : Int
  type : String
  title : String
  description : Option String
  lastUpdate : Int
  createdAt : Int
  updatedAt : Int
  cacheHit : Bool
  cacheExpireAt : Option Int
  deriving Repr, DecidableEq

/-- An `energy_categories` row (`EnergyCategory`); `balanceOid` is the
`balanceId @db.ObjectId` foreign key. -/
structure CategoryRow where
  oid : Nat
  categoryId : String
  type : String
  title : String
  description : Option String
  lastUpdate : Int
  createdAt : Int
  updatedAt : Int
  balanceOid : Nat
  deriving Repr, DecidableEq

/-- An `energy_sources` row (`EnergySource` model). -/
structure SourceRow where
  oid : Nat
  sourceId : String
  groupId : String
  type : String
  title : String
  description : Option String
  color : Option String
  icon : Option String
  magnitude : Option String
  isComposite : Bool
  lastUpdate : Int
  total : Int
  totalPercentage : Int
  createdAt : Int
  updatedAt : Int
  categoryOid : Nat
  deriving Repr, DecidableEq

/-- An `energy_values` row (`EnergyValue` model). -/
structure ValueRow where
  oid : Nat
  value : Int
  percentage : Int
  datetime : Int
  createdAt : Int
  updatedAt : Int
  sourceOid : Nat
  deriving Repr, DecidableEq

/-- The whole MongoDB store, plus the ObjectId counter. -/
structure DBState where
  balances : List BalanceRow
  categories : List CategoryRow
  sources : List SourceRow
  values : List ValueRow
  nextOid : Nat
  deriving Repr, DecidableEq

/-- The empty store. -/
def DBState.empty : DBState := ⟨[], [], [], [], 0⟩

/-! ## DatabaseService (`databaseService.ts`) -/

/-- `apiResponse.data?.id`. -/
def REEApiResponse.dataId (r : REEApiResponse) : Option String := r.data.bind (·.id)

/-- `apiResponse.data?.attributes?.title`. -/
def REEApiResponse.dataTitle (r : REEApiResponse) : Option String :=
  (r.data.bind (·.attributes)).bind (·.title)

/-- `apiResponse.data?.attributes?.["last-update"]`. -/
def REEApiResponse.dataLastUpdate (r : REEApiResponse) : Option Int :=
  (r.data.bind (·.attributes)).bind (·.lastUpdate)

/-- Message of the error thrown by `storeREEData`'s initial validation. -/
def missingDataFieldsMsg : String := "Invalid API response: missing required data fields"

/-- Message of the error thrown by `_upsertPowerGridBalance`'s validation. -/
def missingBalanceDataMsg : String := "Invalid API response: missing required balance data"

/-- `DatabaseError` wrapping a cause, as re-thrown by `storeREEData`'s
catch-all; `causeMessage` is the wrapped error's own message. -/
structure DatabaseError where
  message : String
  causeMessage : String
  deriving Repr, DecidableEq

/-- The fixed wrapper message used by `storeREEData`. -/
def storeFailureMessage : String := "Failed to store REE data in database"

/-- A failure counts as an invalid-payload failure when its wrapped cause
is one of the two `"Invalid API response: ..."` validation errors. -/
def DatabaseError.isInvalidPayload (e : DatabaseError) : Bool :=
  e.causeMessage == missingDataFieldsMsg || e.causeMessage == missingBalanceDataMsg

/-- `_upsertPowerGridBalance`: validates natural id, title and last-update
of the top-level `data` object, then upserts the balance keyed by
`(balanceId, startOfDay balanceDate)`. -/
def upsertPowerGridBalance (resp : REEApiResponse) (balanceDate now : Int) (st : DBState) :
    Except DatabaseError (BalanceRow × DBState) :=
  let nd := startOfDay balanceDate
  if !(truthy resp.dataId) || !(truthy resp.dataTitle) || !resp.dataLastUpdate.isSome then
    .error ⟨storeFailureMessage, missingBalanceDataMsg⟩
  else
    let bid := resp.dataId.getD ""
    let ty := (resp.data.bind (·.type)).getD "balance"
    let title := resp.dataTitle.getD ""
    let desc := (resp.data.bind (·.attributes)).bind (·.description)
    let lu := resp.dataLastUpdate.getD 0
    let cacheHit := ((resp.data.bind (·.cacheControl)).bind (·.cache)) == some "HIT"
    let cacheExp := (resp.data.bind (·.cacheControl)).bind (·.expireAt)
    match st.balances.find? (fun b => b.balanceId == bid && b.balanceDate == nd) with
    | some b =>
      let b2 := { b with type := ty, title := title, description := desc, lastUpdate := lu,
                         cacheHit := cacheHit, cacheExpireAt := cacheExp, updatedAt := now }
      let rows := st.balances.map (fun x => if x.balanceId == bid && x.balanceDate == nd then b2 else x)
      .ok (b2, { st with balances := rows })
    | none =>
      let b2 : BalanceRow :=
        ⟨st.nextOid, bid, nd, ty, title, desc, lu, now, now, cacheHit, cacheExp⟩
      .ok (b2, { st with balances := st.balances ++ [b2], nextOid := st.nextOid + 1 })

/-- The four recognized category type tags in `_filterValidCategories`. -/
def recognizedCategoryTypes : List String :=
  ["Renovable", "No-Renovable", "Almacenamiento", "Demanda"]

/-- The filter predicate of `_filterValidCategories`: recognized type tag,
truthy id, attributes with truthy title and a last-update date, and a
`content` field that is an array. -/
def isValidCategory (item : IncludedItem) : Bool :=
  let hasBasicProperties :=
    truthy item.type && recognizedCategoryTypes.contains (item.type.getD "") &&
    truthy item.id && item.attributes.isSome &&
    truthy (item.attributes.bind (·.title)) &&
    (item.attributes.bind (·.lastUpdate)).isSome
  if !hasBasicProperties then false
  else
    let hasContentProperty :=
      match item.attributes.map (·.content) with
      | some ContentField.absent => false
      | some _ => true
      | none => false
    if !hasContentProperty then false
    else
      match item.attributes.map (·.content) with
      | some (ContentField.arr _) => true
      | _ => false

/-- `_filterValidCategories`. -/
def filterValidCategories (included : List IncludedItem) : List IncludedItem :=
  included.filter isValidCategory

/-- The redundant header validation at the top of
`_upsertCategorySourcesAndValues` ("Skipping category with missing
required fields"). -/
def categoryHeaderOk (cat : IncludedItem) : Bool :=
  truthy cat.id && truthy cat.type &&
  truthy (cat.attributes.bind (·.title)) &&
  (cat.attributes.bind (·.lastUpdate)).isSome

/-- The per-source guard inside `_upsertCategorySourcesAndValues`:
truthy group id equal to the parent category's id, truthy id and type,
attributes with truthy title and a last-update date. -/
def sourceQualifies (catId : String) (s : EnergySource) : Bool :=
  truthy s.groupId && s.groupId == some catId &&
  truthy s.id && truthy s.type &&
  truthy (s.attributes.bind (·.title)) &&
  (s.attributes.bind (·.lastUpdate)).isSome

/-- The `update` document of the category upsert: every mutable field
replaced from the fragment, `balanceId` re-linked, key untouched. -/
def updatedCategoryRow (cat : IncludedItem) (balanceOid : Nat) (now : Int)
    (c : CategoryRow) : CategoryRow :=
  { c with type := cat.type.getD "", title := (cat.attributes.bind (·.title)).getD "",
           description := cat.attributes.bind (·.description),
           lastUpdate := (cat.attributes.bind (·.lastUpdate)).getD 0,
           balanceOid := balanceOid, updatedAt := now }

/-- The category upsert keyed by `categoryId` alone (global natural-key
uniqueness), re-linking `balanceId` to the current balance. -/
def upsertCategoryRow (cat : IncludedItem) (balanceOid : Nat) (now : Int) (st : DBState) :
    CategoryRow × DBState :=
  let cid := cat.id.getD ""
  match st.categories.find? (fun c => c.categoryId == cid) with
  | some c =>
    let c2 := updatedCategoryRow cat balanceOid now c
    (c2, { st with categories := st.categories.map (fun x => if x.categoryId == cid then c2 else x) })
  | none =>
    let c2 : CategoryRow :=
      ⟨st.nextOid, cid, cat.type.getD "", (cat.attributes.bind (·.title)).getD "",
       cat.attributes.bind (·.description), (cat.attributes.bind (·.lastUpdate)).getD 0,
       now, now, balanceOid⟩
    (c2, { st with categories := st.categories ++ [c2], nextOid := st.nextOid + 1 })

/-- The source upsert keyed by `sourceId`, with the `sourcePayload`
defaults (`?? null`, `?? false`, `?? 0`) from the code. -/
def upsertSourceRow (s : EnergySource) (categoryOid : Nat) (now : Int) (st : DBState) :
    SourceRow × DBState :=
  let sid := s.id.getD ""
  let gid := s.groupId.getD ""
  let ty := s.type.getD ""
  let title := (s.attributes.bind (·.title)).getD ""
  let desc := s.attributes.bind (·.description)
  let color := s.attributes.bind (·.color)
  let icon := s.attributes.bind (·.icon)
  let mag := s.attributes.bind (·.magnitude)
  let comp := ((s.attributes.bind (·.composite)).getD false)
  let lu := (s.attributes.bind (·.lastUpdate)).getD 0
  let total := (s.attributes.bind (·.total)).getD 0
  let totalPct := (s.attributes.bind (·.totalPercentage)).getD 0
  match st.sources.find? (fun r => r.sourceId == sid) with
  | some r =>
    let r2 := { r with groupId := gid, type := ty, title := title, description := desc,
                       color := color, icon := icon, magnitude := mag, isComposite := comp,
                       lastUpdate := lu, total := total, totalPercentage := totalPct,
                       categoryOid := categoryOid, updatedAt := now }
    (r2, { st with sources := st.sources.map (fun x => if x.sourceId == sid then r2 else x) })
  | none =>
    let r2 : SourceRow :=
      ⟨st.nextOid, sid, gid, ty, title, desc, color, icon, mag, comp, lu, total, totalPct,
       now, now, categoryOid⟩
    (r2, { st with sources := st.sources ++ [r2], nextOid := st.nextOid + 1 })

/-- The `validValues` filter of `_upsertEnergyValues`: a value needs a
datetime, a value and a percentage. -/
def validValue (v : EnergyValue) : Bool :=
  v.datetime.isSome && v.value.isSome && v.percentage.isSome

/-- One value upsert keyed by `(sourceId, datetime)`: duplicate
timestamps overwrite value/percentage in place. -/
def upsertValueRow (v : EnergyValue) (sourceOid : Nat) (now : Int) (st : DBState) : DBState :=
  let dt := v.datetime.getD 0
  let vv := v.value.getD 0
  let pp := v.percentage.getD 0
  match st.values.find? (fun w => w.sourceOid == sourceOid && w.datetime == dt) with
  | some w =>
    let w2 := { w with value := vv, percentage := pp, updatedAt := now }
    let rows := st.values.map (fun x => if x.sourceOid == sourceOid && x.datetime == dt then w2 else x)
    { st with values := rows }
  | none =>
    { st with values := st.values ++ [⟨st.nextOid, vv, pp, dt, now, now, sourceOid⟩],
              nextOid := st.nextOid + 1 }

/-- `_upsertEnergyValues`: filter out incomplete values, then upsert each
surviving point. -/
def upsertEnergyValues (values : List EnergyValue) (sourceOid : Nat) (now : Int)
    (st : DBState) : DBState :=
  (values.filter validValue).foldl (fun s v => upsertValueRow v sourceOid now s) st

/-- The `for (const sourceData of sources)` loop of
`_upsertCategorySourcesAndValues`. -/
def processSources (catId : String) (categoryOid : Nat) (now : Int) :
    List EnergySource → DBState → DBState
  | [], st => st
  | s :: rest, st =>
    if sourceQualifies catId s then
      let p := upsertSourceRow s categoryOid now st
      let vals := (s.attributes.map (·.values)).getD []
      let st2 := if vals.length > 0 then upsertEnergyValues vals p.1.oid now p.2 else p.2
      processSources catId categoryOid now rest st2
    else
      processSources catId categoryOid now rest st

/-- `categoryData.attributes.content ?? []` for a category that reached
the source loop (the filter guarantees `content` is an array there). -/
def contentList (cat : IncludedItem) : List EnergySource :=
  match cat.attributes.map (·.content) with
  | some (ContentField.arr l) => l
  | _ => []

/-- `_upsertCategorySourcesAndValues`: skip on missing header fields,
otherwise upsert the category and walk its `content` sources. -/
def upsertCategorySourcesAndValues (cat : IncludedItem) (balanceOid : Nat) (now : Int)
    (st : DBState) : DBState :=
  if categoryHeaderOk cat then
    let p := upsertCategoryRow cat balanceOid now st
    processSources (cat.id.getD "") p.1.oid now (contentList cat) p.2
  else st

/-- `storeREEData`: initial id/title validation, balance upsert (which
also requires last-update), then per-category upserts; every thrown
error is wrapped into a `DatabaseError`. -/
def storeREEData (resp : REEApiResponse) (balanceDate now : Int) (st : DBState) :
    Except DatabaseError DBState :=
  if !(truthy resp.dataId) || !(truthy resp.dataTitle) then
    .error ⟨storeFailureMessage, missingDataFieldsMsg⟩
  else
    match upsertPowerGridBalance resp balanceDate now st with
    | .error e => .error e
    | .ok (brow, st1) =>
      let cats := filterValidCategories resp.included
      .ok (cats.foldl (fun s c => upsertCategorySourcesAndValues c brow.oid now s) st1)

/-- `cleanupOldData`: delete balances with `createdAt` strictly before
`now - daysToKeep` days, cascading (per the Prisma schema's
`onDelete: Cascade` relations) to categories, sources and values;
return the number of balances deleted. -/
def cleanupOldData (daysToKeep : Int) (now : Int) (st : DBState) : Nat × DBState :=
  let cutoff := now - daysToKeep * msPerDay
  let deleted := st.balances.filter (fun b => b.createdAt < cutoff)
  let kept := st.balances.filter (fun b => !(b.createdAt < cutoff))
  let deletedBalanceOids := deleted.map (·.oid)
  let keptCats := st.categories.filter (fun c => !(deletedBalanceOids.contains c.balanceOid))
  let deletedCatOids :=
    (st.categories.filter (fun c => deletedBalanceOids.contains c.balanceOid)).map (·.oid)
  let keptSources := st.sources.filter (fun s => !(deletedCatOids.contains s.categoryOid))
  let deletedSourceOids :=
    (st.sources.filter (fun s => deletedCatOids.contains s.categoryOid)).map (·.oid)
  let keptValues := st.values.filter (fun v => !(deletedSourceOids.contains v.sourceOid))
  (deleted.length,
   { st with balances := kept, categories := keptCats, sources := keptSources,
             values := keptValues })

/-! ## REEApiService (`reeApiService.ts`)

`fetchElectricBalance` is modelled against an oracle giving the outcome
of each `betterFetch` attempt (1-indexed); the trace records the result,
the number of attempts made and the inter-attempt delays awaited. -/

/-- `maxRetries` field of `REEApiService`. -/
def maxRetries : Nat := 3

/-- `retryDelay` field of `REEApiService` (milliseconds). -/
def retryDelay : Nat := 1000

/-- Outcome of one `betterFetch` attempt: a parsed payload, or the error
thrown inside the `try` block (transport error, `error` result, or
missing data). -/
inductive AttemptResult where
  | ok (resp : REEApiResponse)
  | err (msg : String)
  deriving Repr, DecidableEq

/-- `REEApiError` with its message and optional wrapped cause message. -/
structure REEApiError where
  message : String
  causeMessage : Option String
  deriving Repr, DecidableEq

/-- The message of the retry-exhaustion `REEApiError`. -/
def exhaustedMsg (attempts : Nat) (cause : String) : String :=
  "Failed to fetch data after " ++ toString attempts ++ " attempts: " ++ cause

deriving instance DecidableEq for Except

/-- Execution trace of `fetchElectricBalance`: final result, number of
attempts made, and the delays awaited between failed attempts. -/
structure FetchTrace where
  result : Except REEApiError REEApiResponse
  attemptsMade : Nat
  delays : List Nat
  deriving DecidableEq

/-- The `for (attempt = 1; attempt <= maxRetries; attempt++)` loop:
on failure at `attempt === maxRetries` throw the exhaustion error,
otherwise await `delay(retryDelay * attempt)` and continue; the
out-of-fuel case is the unreachable throw after the loop. -/
def fetchAux (oracle : Nat → AttemptResult) : Nat → Nat → FetchTrace
  | _, 0 => ⟨.error ⟨"Unexpected error in fetchElectricBalance", none⟩, 0, []⟩
  | attempt, r+1 =>
    match oracle attempt with
    | .ok resp => ⟨.ok resp, 1, []⟩
    | .err m =>
      if attempt = maxRetries then
        ⟨.error ⟨exhaustedMsg maxRetries m, some m⟩, 1, []⟩
      else
        let t := fetchAux oracle (attempt + 1) r
        ⟨t.result, t.attemptsMade + 1, retryDelay * attempt :: t.delays⟩

/-- `fetchElectricBalance`, starting at attempt 1. -/
def fetchElectricBalance (oracle : Nat → AttemptResult) : FetchTrace :=
  fetchAux oracle 1 maxRetries

/-! ## SchedulerService (`schedulerService.ts`)

Job bodies are modelled against an oracle `fetchDay : Nat → Except
REEApiError REEApiResponse` giving the outcome of
`reeApiService.fetchDateData(subDays(new Date(), day))`, with day 0 =
today; storage goes through the embedded `storeREEData` on a `DBState`. -/

/-- An error caught by a scheduler job body: a `REEApiError` from the
remote client or a `DatabaseError` from storage. -/
inductive SchedError where
  | ree (e : REEApiError)
  | db (e : DatabaseError)
  deriving Repr, DecidableEq

/-- The fetch-then-store body shared by the job bodies: fetch the data
for `day` days ago and store it under that date. -/
def ingestDayBody (fetchDay : Nat → Except REEApiError REEApiResponse) (today : Int)
    (day : Nat) (st : DBState) : Except SchedError DBState :=
  match fetchDay day with
  | .error e => .error (.ree e)
  | .ok resp =>
    match storeREEData resp (today - day * msPerDay) today st with
    | .error e => .error (.db e)
    | .ok st2 => .ok st2

/-- `handleFetchError`: classifies and logs the error, and returns
without re-throwing (the fallback strategies are comments only). -/
def handleFetchError (_e : SchedError) : Except SchedError Unit := .ok ()

/-- `fetchCurrentData`: the ingestion body for today, with its `catch`
routing any error to `handleFetchError`; the run keeps the prior store
state when the error is swallowed. -/
def fetchCurrentData (fetchDay : Nat → Except REEApiError REEApiResponse) (today : Int)
    (st : DBState) : Except SchedError DBState :=
  match ingestDayBody fetchDay today 0 st with
  | .ok st2 => .ok st2
  | .error e =>
    match handleFetchError e with
    | .ok _ => .ok st
    | .error e2 => .error e2

/-- `fetchPreviousData`: the same pipeline for yesterday. -/
def fetchPreviousData (fetchDay : Nat → Except REEApiError REEApiResponse) (today : Int)
    (st : DBState) : Except SchedError DBState :=
  match ingestDayBody fetchDay today 1 st with
  | .ok st2 => .ok st2
  | .error e =>
    match handleFetchError e with
    | .ok _ => .ok st
    | .error e2 => .error e2

/-- The `for (let i = 2; i <= 8; i++)` loop of `fetchHistoricalData`:
each day's failure is logged and the loop continues with the next day. -/
def historicalLoop (fetchDay : Nat → Except REEApiError REEApiResponse) (today : Int) :
    List Nat → DBState → DBState
  | [], st => st
  | d :: rest, st =>
    match ingestDayBody fetchDay today d st with
    | .ok st2 => historicalLoop fetchDay today rest st2
    | .error _ => historicalLoop fetchDay today rest st

/-- `fetchHistoricalData`: per-day isolated ingestion of days 2..8 ago;
the outer catch is unreachable because every day's error is already
swallowed inside the loop. -/
def fetchHistoricalData (fetchDay : Nat → Except REEApiError REEApiResponse) (today : Int)
    (st : DBState) : Except SchedError DBState :=
  .ok (historicalLoop fetchDay today [2, 3, 4, 5, 6, 7, 8] st)

/-- The argument of `manualFetch`. -/
inductive FetchKind where
  | current
  | previous
  | historical
  deriving Repr, DecidableEq

/-- `manualFetch`: dispatches to the corresponding job body and
re-throws whatever escapes it (`catch (error) { ...; throw error }`). -/
def manualFetch (kind : FetchKind) (fetchDay : Nat → Except REEApiError REEApiResponse)
    (today : Int) (st : DBState) : Except SchedError DBState :=
  let r :=
    match kind with
    | .current => fetchCurrentData fetchDay today st
    | .previous => fetchPreviousData fetchDay today st
    | .historical => fetchHistoricalData fetchDay today st
  match r with
  | .ok st2 => .ok st2
  | .error e => .error e

/-- The four cron jobs registered by `start()`. -/
inductive JobKind where
  | currentData
  | previousData
  | historicalData
  | cleanup
  deriving Repr, DecidableEq

/-- The scheduler's mutable fields: `jobs` and `isRunning`. -/
structure SchedulerState where
  jobs : List JobKind
  isRunning : Bool
  deriving Repr, DecidableEq

/-- Field initializers of `SchedulerService`. -/
def SchedulerState.initial : SchedulerState := ⟨[], false⟩

/-- `start()`: no-op when already running, otherwise register the four
jobs and set `isRunning`. -/
def SchedulerState.start (s : SchedulerState) : SchedulerState :=
  if s.isRunning then s
  else ⟨[.currentData, .previousData, .historicalData, .cleanup], true⟩

/-- `stop()`: no-op when not running, otherwise clear `jobs` and unset
`isRunning`. -/
def SchedulerState.stop (s : SchedulerState) : SchedulerState :=
  if !s.isRunning then s
  else ⟨[], false⟩

/-- The value returned by `getStatus()`. -/
structure SchedulerStatus where
  isRunning : Bool
  jobCount : Nat
  deriving Repr, DecidableEq

/-- `getStatus()`. -/
def SchedulerState.getStatus (s : SchedulerState) : SchedulerStatus :=
  ⟨s.isRunning, s.jobs.length⟩

/-- A sequence of ingestion runs, as driven by the scheduler: each run
calls `storeREEData` with a payload, a balance date and a wall-clock
time; a failed run leaves the store untouched (the validation errors are
raised before any write). -/
def ingestAll : List (REEApiResponse × Int × Int) → DBState → DBState
  | [], st => st
  | (r, d, n) :: rest, st =>
    match storeREEData r d n st with
    | .ok st2 => ingestAll rest st2
    | .error _ => ingestAll rest st

/-! ## Theorems -/

/-- A remote client whose every attempt throws, e.g. the retry-exhausted
`REEApiError` of `fetchElectricBalance`. -/
def alwaysFailingFetch : Nat → Except REEApiError REEApiResponse :=
  fun _ => .error ⟨exhaustedMsg 3 "network down", some "network down"⟩

/-- C9: the scheduler is a two-state machine: `getStatus()` reports
`{isRunning := false, jobCount := 0}` initially,
`{isRunning := true, jobCount := 4}` after `start()`, and
`{isRunning := false, jobCount := 0}` after a subsequent `stop()`;
`start()` while running and `stop()` while stopped leave the state
unchanged. -/
theorem scheduler_two_state_lifecycle :
    SchedulerState.initial.getStatus = ⟨false, 0⟩ ∧
    SchedulerState.initial.start.getStatus = ⟨true, 4⟩ ∧
    SchedulerState.initial.start.stop.getStatus = ⟨false, 0⟩ ∧
    (∀ s : SchedulerState, s.isRunning = true → s.start = s) ∧
    (∀ s : SchedulerState, s.isRunning = false → s.stop = s) := by
  refine ⟨rfl, rfl, rfl, ?_, ?_⟩ <;>
    · intro s h
      simp [SchedulerState.start, SchedulerState.stop, h]

/-- Witness for the two no-op clauses of the lifecycle theorem at
concrete scheduler states. -/
theorem scheduler_two_state_lifecycle_witness :
    SchedulerState.start ⟨[JobKind.cleanup], true⟩ = ⟨[JobKind.cleanup], true⟩ ∧
    SchedulerState.stop ⟨[], false⟩ = ⟨[], false⟩ :=
  ⟨scheduler_two_state_lifecycle.2.2.2.1 ⟨[JobKind.cleanup], true⟩ rfl,
   scheduler_two_state_lifecycle.2.2.2.2 ⟨[], false⟩ rfl⟩

/-- C1 (failing input): when every remote fetch attempt fails, the
underlying ingestion body fails with the `REEApiError`, for today,
yesterday, and a historical day alike — yet `manualFetch` returns
success for all three kinds, because `fetchCurrentData`,
`fetchPreviousData` and `fetchHistoricalData` route every error into
`handleFetchError`, which only logs; the `catch { throw error }` in
`manualFetch` is dead code. -/
theorem manualFetch_swallows_ingestion_failure :
    ingestDayBody alwaysFailingFetch 0 0 DBState.empty =
      .error (.ree ⟨exhaustedMsg 3 "network down", some "network down"⟩) ∧
    ingestDayBody alwaysFailingFetch 0 1 DBState.empty =
      .error (.ree ⟨exhaustedMsg 3 "network down", some "network down"⟩) ∧
    ingestDayBody alwaysFailingFetch 0 2 DBState.empty =
      .error (.ree ⟨exhaustedMsg 3 "network down", some "network down"⟩) ∧
    manualFetch .current alwaysFailingFetch 0 DBState.empty = .ok DBState.empty ∧
    manualFetch .previous alwaysFailingFetch 0 DBState.empty = .ok DBState.empty ∧
    manualFetch .historical alwaysFailingFetch 0 DBState.empty = .ok DBState.empty :=
  ⟨rfl, rfl, rfl, rfl, rfl, rfl⟩

/-- C3: when every transport attempt fails, `fetchElectricBalance`
makes exactly 3 attempts, waits 1000·n ms after failed attempt n < 3,
and throws a `REEApiError` whose message states the 3 attempts and
which wraps the last underlying cause. -/
theorem fetch_retry_exhaustion (oracle : Nat → AttemptResult) (m1 m2 m3 : String)
    (h1 : oracle 1 = .err m1) (h2 : oracle 2 = .err m2) (h3 : oracle 3 = .err m3) :
    fetchElectricBalance oracle =
      ⟨.error ⟨"Failed to fetch data after 3 attempts: " ++ m3, some m3⟩, 3, [1000, 2000]⟩ := by
  simp [fetchElectricBalance, fetchAux, maxRetries, retryDelay, exhaustedMsg, h1, h2, h3]
  rfl

/-- Witness: the retry-exhaustion theorem applied to a concrete
always-failing transport. -/
theorem fetch_retry_exhaustion_witness :
    fetchElectricBalance (fun _ => .err "boom") =
      ⟨.error ⟨"Failed to fetch data after 3 attempts: boom", some "boom"⟩, 3, [1000, 2000]⟩ :=
  fetch_retry_exhaustion (fun _ => .err "boom") "boom" "boom" "boom" rfl rfl rfl

/-! ### Frame lemmas: each upsert touches only its own collection -/

theorem upsertValueRow_frame (v : EnergyValue) (so : Nat) (now : Int) (st : DBState) :
    (upsertValueRow v so now st).balances = st.balances ∧
    (upsertValueRow v so now st).categories = st.categories ∧
    (upsertValueRow v so now st).sources = st.sources := by
  cases h : st.values.find? (fun w => w.sourceOid == so && w.datetime == v.datetime.getD 0) <;>
    simp [upsertValueRow, h]

theorem valueFold_frame (so : Nat) (now : Int) (l : List EnergyValue) :
    ∀ st : DBState,
      ((l.foldl (fun s v => upsertValueRow v so now s) st).balances = st.balances ∧
       (l.foldl (fun s v => upsertValueRow v so now s) st).categories = st.categories ∧
       (l.foldl (fun s v => upsertValueRow v so now s) st).sources = st.sources) := by
  induction l with
  | nil => intro st; exact ⟨rfl, rfl, rfl⟩
  | cons v rest ih =>
    intro st
    have h1 := upsertValueRow_frame v so now st
    have h2 := ih (upsertValueRow v so now st)
    simp only [List.foldl_cons]
    exact ⟨h2.1.trans h1.1, h2.2.1.trans h1.2.1, h2.2.2.trans h1.2.2⟩

theorem upsertEnergyValues_frame (vs : List EnergyValue) (so : Nat) (now : Int) (st : DBState) :
    (upsertEnergyValues vs so now st).balances = st.balances ∧
    (upsertEnergyValues vs so now st).categories = st.categories ∧
    (upsertEnergyValues vs so now st).sources = st.sources :=
  valueFold_frame so now (vs.filter validValue) st

theorem upsertSourceRow_frame (s : EnergySource) (co : Nat) (now : Int) (st : DBState) :
    (upsertSourceRow s co now st).2.balances = st.balances ∧
    (upsertSourceRow s co now st).2.categories = st.categories ∧
    (upsertSourceRow s co now st).2.values = st.values := by
  cases h : st.sources.find? (fun r => r.sourceId == s.id.getD "") <;>
    simp [upsertSourceRow, h]

theorem processSources_frame (catId : String) (co : Nat) (now : Int) (l : List EnergySource) :
    ∀ st : DBState,
      (processSources catId co now l st).balances = st.balances ∧
      (processSources catId co now l st).categories = st.categories := by
  induction l with
  | nil => intro st; exact ⟨rfl, rfl⟩
  | cons s rest ih =>
    intro st
    by_cases hq : sourceQualifies catId s = true
    · have hsrc := upsertSourceRow_frame s co now st
      by_cases hv : ((s.attributes.map (·.values)).getD []).length > 0
      · have hval := upsertEnergyValues_frame ((s.attributes.map (·.values)).getD [])
          (upsertSourceRow s co now st).1.oid now (upsertSourceRow s co now st).2
        have hrest := ih (upsertEnergyValues ((s.attributes.map (·.values)).getD [])
          (upsertSourceRow s co now st).1.oid now (upsertSourceRow s co now st).2)
        simp only [processSources, hq, if_true, hv]
        exact ⟨(hrest.1.trans hval.1).trans hsrc.1, (hrest.2.trans hval.2.1).trans hsrc.2.1⟩
      · have hrest := ih (upsertSourceRow s co now st).2
        simp only [processSources, hq, if_true, hv]
        exact ⟨hrest.1.trans hsrc.1, hrest.2.trans hsrc.2.1⟩
    · have hrest := ih st
      simp only [processSources, hq, if_false]
      exact hrest

theorem upsertCategoryRow_frame (cat : IncludedItem) (bo : Nat) (now : Int) (st : DBState) :
    (upsertCategoryRow cat bo now st).2.balances = st.balances ∧
    (upsertCategoryRow cat bo now st).2.sources = st.sources ∧
    (upsertCategoryRow cat bo now st).2.values = st.values := by
  cases h : st.categories.find? (fun c => c.categoryId == cat.id.getD "") <;>
    simp [upsertCategoryRow, h]

theorem upsertCategorySourcesAndValues_frame (cat : IncludedItem) (bo : Nat) (now : Int)
    (st : DBState) :
    (upsertCategorySourcesAndValues cat bo now st).balances = st.balances := by
  by_cases hh : categoryHeaderOk cat = true
  · have hcat := upsertCategoryRow_frame cat bo now st
    have hps := processSources_frame (cat.id.getD "") (upsertCategoryRow cat bo now st).1.oid now
      (contentList cat) (upsertCategoryRow cat bo now st).2
    simp only [upsertCategorySourcesAndValues, hh, if_true]
    exact hps.1.trans hcat.1
  · simp [upsertCategorySourcesAndValues, hh]

theorem catFold_frame (bo : Nat) (now : Int) (cats : List IncludedItem) :
    ∀ st : DBState,
      (cats.foldl (fun s c => upsertCategorySourcesAndValues c bo now s) st).balances =
        st.balances := by
  induction cats with
  | nil => intro st; rfl
  | cons c rest ih =>
    intro st
    simp only [List.foldl_cons]
    exact (ih (upsertCategorySourcesAndValues c bo now st)).trans
      (upsertCategorySourcesAndValues_frame c bo now st)

/-! ### C7: the category filter -/

/-- The claim's flat description of a qualifying category fragment: a
recognized type tag, a natural id, a title, a last-update timestamp,
and a `content` field that is an array.  Stated in the claim's own
words, to be compared with the code's staged `isValidCategory`. -/
def specCategoryShape (item : IncludedItem) : Prop :=
  (∃ t, item.type = some t ∧ t ∈ recognizedCategoryTypes) ∧
  truthy item.id = true ∧
  truthy (item.attributes.bind (·.title)) = true ∧
  (item.attributes.bind (·.lastUpdate)).isSome = true ∧
  (∃ l, item.attributes.map (·.content) = some (ContentField.arr l))

theorem mem_recognized_ne_empty {t : String} (h : t ∈ recognizedCategoryTypes) : t ≠ "" := by
  rintro rfl
  revert h
  decide

theorem isValidCategory_iff_specCategoryShape (item : IncludedItem) :
    isValidCategory item = true ↔ specCategoryShape item := by
  obtain ⟨ty, idf, attrs⟩ := item
  cases ty with
  | none =>
    simp [isValidCategory, specCategoryShape, truthy, Option.bind, Option.map]
  | some t =>
    cases attrs with
    | none =>
      simp [isValidCategory, specCategoryShape, truthy, Option.bind, Option.map]
    | some a =>
      obtain ⟨title, lastUpdate, descr, content⟩ := a
      cases idf with
      | none =>
        simp [isValidCategory, specCategoryShape, truthy, Option.bind, Option.map]
      | some i =>
        cases title with
        | none =>
          simp [isValidCategory, specCategoryShape, truthy, Option.bind, Option.map]
        | some ti =>
          cases lastUpdate with
          | none =>
            simp [isValidCategory, specCategoryShape, truthy, Option.bind, Option.map]
          | some lu =>
            cases content with
            | absent =>
              simp [isValidCategory, specCategoryShape, truthy, Option.bind, Option.map]
            | nonArray =>
              simp [isValidCategory, specCategoryShape, truthy, Option.bind, Option.map]
            | arr l =>
              simp only [isValidCategory, specCategoryShape, truthy, Option.bind, Option.map]
              simp
              constructor
              · rintro ⟨⟨⟨-, hmem⟩, hi⟩, hti⟩
                exact ⟨hmem, hi, hti⟩
              · rintro ⟨hmem, hi, hti⟩
                exact ⟨⟨⟨mem_recognized_ne_empty hmem, hmem⟩, hi⟩, hti⟩

/-- C7: a fragment of the payload's `included` list survives
`_filterValidCategories` (and hence is persisted as a category) exactly
when its type tag is one of the four recognized category tags and it
has a natural id, a title, a last-update timestamp, and an array-valued
`content` field; every other fragment is excluded (and the filter is a
total function — exclusion raises no error). -/
theorem category_filter_exactly_spec_shape (included : List IncludedItem) (item : IncludedItem) :
    item ∈ filterValidCategories included ↔ item ∈ included ∧ specCategoryShape item := by
  rw [filterValidCategories, List.mem_filter, isValidCategory_iff_specCategoryShape]

/-! ### Payload validation in `storeREEData` (C2, C10) -/

theorem upsertPowerGridBalance_ok (resp : REEApiResponse) (d now : Int) (st : DBState)
    (hid : truthy resp.dataId = true) (htitle : truthy resp.dataTitle = true)
    (hlu : resp.dataLastUpdate.isSome = true) :
    ∃ brow st1, upsertPowerGridBalance resp d now st = .ok (brow, st1) ∧
      brow ∈ st1.balances ∧ brow.balanceId = resp.dataId.getD "" ∧
      brow.balanceDate = startOfDay d := by
  have hcond : (!(truthy resp.dataId) || !(truthy resp.dataTitle) ||
      !resp.dataLastUpdate.isSome) = false := by
    simp [hid, htitle, hlu]
  simp only [upsertPowerGridBalance, hcond, Bool.false_eq_true, if_false]
  cases hf : st.balances.find?
      (fun b => b.balanceId == resp.dataId.getD "" && b.balanceDate == startOfDay d) with
  | some b =>
    have hb := List.find?_some hf
    have hmem := List.mem_of_find?_eq_some hf
    simp only [Bool.and_eq_true, beq_iff_eq] at hb
    refine ⟨_, _, rfl, ?_, hb.1, hb.2⟩
    refine List.mem_map.mpr ⟨b, hmem, ?_⟩
    simp [hb.1, hb.2]
  | none =>
    exact ⟨_, _, rfl, by simp, rfl, rfl⟩

theorem storeREEData_missing_fields (resp : REEApiResponse) (d now : Int) (st : DBState)
    (h : ¬(truthy resp.dataId = true ∧ truthy resp.dataTitle = true)) :
    storeREEData resp d now st = .error ⟨storeFailureMessage, missingDataFieldsMsg⟩ := by
  have hcond : (!(truthy resp.dataId) || !(truthy resp.dataTitle)) = true := by
    rcases Decidable.not_and_iff_or_not.mp h with h1 | h1 <;> simp [h1]
  simp [storeREEData, hcond]

theorem storeREEData_missing_last_update (resp : REEApiResponse) (d now : Int) (st : DBState)
    (hid : truthy resp.dataId = true) (htitle : truthy resp.dataTitle = true)
    (hlu : resp.dataLastUpdate = none) :
    storeREEData resp d now st = .error ⟨storeFailureMessage, missingBalanceDataMsg⟩ := by
  simp [storeREEData, hid, htitle, upsertPowerGridBalance, hlu]

theorem storeREEData_ok_of_valid (resp : REEApiResponse) (d now : Int) (st : DBState)
    (hid : truthy resp.dataId = true) (htitle : truthy resp.dataTitle = true)
    (hlu : resp.dataLastUpdate.isSome = true) :
    ∃ st2, storeREEData resp d now st = .ok st2 ∧
      ∃ b ∈ st2.balances, b.balanceId = resp.dataId.getD "" ∧
        b.balanceDate = startOfDay d := by
  obtain ⟨brow, st1, hup, hmem, hbid, hbd⟩ := upsertPowerGridBalance_ok resp d now st hid htitle hlu
  refine ⟨(filterValidCategories resp.included).foldl
      (fun s c => upsertCategorySourcesAndValues c brow.oid now s) st1, ?_, ?_⟩
  · simp [storeREEData, hid, htitle, hup]
  · rw [catFold_frame]
    exact ⟨brow, hmem, hbid, hbd⟩

/-- C10: a payload whose top-level `data` has a natural id and a title
but no last-update fails in `_upsertPowerGridBalance` and surfaces as a
storage-layer `DatabaseError` wrapping the "missing required balance
data" cause; no balance is stored (the error is raised before any
write). -/
theorem store_fails_without_last_update (resp : REEApiResponse) (d now : Int) (st : DBState)
    (hid : truthy resp.dataId = true) (htitle : truthy resp.dataTitle = true)
    (hlu : resp.dataLastUpdate = none) :
    storeREEData resp d now st = .error ⟨storeFailureMessage, missingBalanceDataMsg⟩ :=
  storeREEData_missing_last_update resp d now st hid htitle hlu

/-- A concrete payload with a natural id and a title but no top-level
last-update. -/
def payloadNoLastUpdate : REEApiResponse :=
  { data := some
      { type := none, id := some "bal1",
        attributes := some { title := some "T", lastUpdate := none, description := none },
        cacheControl := none },
    included := [] }

/-- Witness: the missing-last-update theorem at `payloadNoLastUpdate`. -/
theorem store_fails_without_last_update_witness :
    storeREEData payloadNoLastUpdate 0 0 DBState.empty =
      .error ⟨storeFailureMessage, missingBalanceDataMsg⟩ :=
  store_fails_without_last_update payloadNoLastUpdate 0 0 DBState.empty rfl rfl rfl

/-- C2 (counterexample): it is not the case that `storeREEData` fails
with an invalid-payload error exactly when the payload lacks a natural
id or a title: `payloadNoLastUpdate` carries both fields, yet the run
fails on payload validation (the missing top-level last-update) before
anything is stored. -/
theorem store_invalid_payload_iff_counterexample :
    ¬ (∀ (resp : REEApiResponse) (d now : Int) (st : DBState),
        (∃ e, storeREEData resp d now st = .error e ∧ e.isInvalidPayload = true) ↔
          ¬(truthy resp.dataId = true ∧ truthy resp.dataTitle = true)) := by
  intro h
  have hfail : ∃ e, storeREEData payloadNoLastUpdate 0 0 DBState.empty = .error e ∧
      e.isInvalidPayload = true :=
    ⟨⟨storeFailureMessage, missingBalanceDataMsg⟩,
      storeREEData_missing_last_update payloadNoLastUpdate 0 0 DBState.empty rfl rfl rfl, rfl⟩
  exact (h payloadNoLastUpdate 0 0 DBState.empty).mp hfail ⟨rfl, rfl⟩

/-- C2 (amended): `storeREEData` fails with a hard invalid-payload
error exactly when the payload's top-level `data` lacks a natural id,
a title, or a last-update timestamp; whenever all three are present the
run proceeds past payload validation and a balance keyed by the
payload's natural id and the day-normalized date is stored. -/
theorem store_invalid_payload_iff_missing_fields (resp : REEApiResponse) (d now : Int)
    (st : DBState) :
    ((∃ e, storeREEData resp d now st = .error e ∧ e.isInvalidPayload = true) ↔
      ¬(truthy resp.dataId = true ∧ truthy resp.dataTitle = true ∧
        resp.dataLastUpdate.isSome = true)) ∧
    (truthy resp.dataId = true → truthy resp.dataTitle = true →
      resp.dataLastUpdate.isSome = true →
      ∃ st2, storeREEData resp d now st = .ok st2 ∧
        ∃ b ∈ st2.balances, b.balanceId = resp.dataId.getD "" ∧
          b.balanceDate = startOfDay d) := by
  constructor
  · constructor
    · rintro ⟨e, he, -⟩ ⟨h1, h2, h3⟩
      obtain ⟨st2, hok, -⟩ := storeREEData_ok_of_valid resp d now st h1 h2 h3
      rw [hok] at he
      cases he
    · intro hnall
      by_cases h1 : truthy resp.dataId = true
      · by_cases h2 : truthy resp.dataTitle = true
        · have h3 : resp.dataLastUpdate = none := by
            cases hl : resp.dataLastUpdate with
            | none => rfl
            | some x => exact absurd ⟨h1, h2, by simp [hl]⟩ hnall
          exact ⟨⟨storeFailureMessage, missingBalanceDataMsg⟩,
            storeREEData_missing_last_update resp d now st h1 h2 h3, rfl⟩
        · exact ⟨⟨storeFailureMessage, missingDataFieldsMsg⟩,
            storeREEData_missing_fields resp d now st (fun hc => h2 hc.2), rfl⟩
      · exact ⟨⟨storeFailureMessage, missingDataFieldsMsg⟩,
          storeREEData_missing_fields resp d now st (fun hc => h1 hc.1), rfl⟩
  · exact storeREEData_ok_of_valid resp d now st

/-- A concrete payload with natural id, title and last-update. -/
def payloadAllFields : REEApiResponse :=
  { data := some
      { type := none, id := some "bal1",
        attributes := some { title := some "T", lastUpdate := some 5, description := none },
        cacheControl := none },
    included := [] }

/-- Witness: the amended validation theorem at `payloadAllFields`,
discharging the all-fields-present implications. -/
theorem store_invalid_payload_iff_missing_fields_witness :
    ∃ st2, storeREEData payloadAllFields 0 0 DBState.empty = .ok st2 ∧
      ∃ b ∈ st2.balances, b.balanceId = (payloadAllFields.dataId).getD "" ∧
        b.balanceDate = startOfDay 0 :=
  (store_invalid_payload_iff_missing_fields payloadAllFields 0 0 DBState.empty).2 rfl rfl rfl

/-! ### C4: which source fragments get persisted -/

/-- The natural ids of the stored source rows. -/
def DBState.sourceIds (st : DBState) : List String := st.sources.map (·.sourceId)

theorem sourceIds_upsertValueRow (v : EnergyValue) (so : Nat) (now : Int) (st : DBState) :
    (upsertValueRow v so now st).sourceIds = st.sourceIds := by
  unfold DBState.sourceIds
  rw [(upsertValueRow_frame v so now st).2.2]

theorem sourceIds_upsertEnergyValues (vs : List EnergyValue) (so : Nat) (now : Int)
    (st : DBState) :
    (upsertEnergyValues vs so now st).sourceIds = st.sourceIds := by
  unfold DBState.sourceIds
  rw [(upsertEnergyValues_frame vs so now st).2.2]

theorem mem_sourceIds_upsertSourceRow (s : EnergySource) (co : Nat) (now : Int) (st : DBState)
    (sid : String) :
    sid ∈ (upsertSourceRow s co now st).2.sourceIds ↔
      sid ∈ st.sourceIds ∨ sid = s.id.getD "" := by
  cases hf : st.sources.find? (fun r => r.sourceId == s.id.getD "") with
  | some r =>
    have hr := List.find?_some hf
    have hmem := List.mem_of_find?_eq_some hf
    rw [beq_iff_eq] at hr
    have hkey : s.id.getD "" ∈ st.sourceIds := by
      exact List.mem_map.mpr ⟨r, hmem, hr⟩
    have hids : (upsertSourceRow s co now st).2.sourceIds = st.sourceIds := by
      simp only [upsertSourceRow, hf, DBState.sourceIds, List.map_map]
      refine List.map_congr_left ?_
      intro x _
      by_cases hx : x.sourceId == s.id.getD ""
      · simp only [Function.comp_apply, hx, if_true]
        rw [beq_iff_eq] at hx
        simp [hx, hr]
      · simp only [Function.comp_apply, hx]
        simp
    rw [hids]
    constructor
    · exact Or.inl
    · rintro (h | rfl)
      · exact h
      · exact hkey
  | none =>
    simp only [upsertSourceRow, hf, DBState.sourceIds, List.map_append]
    simp [eq_comm]

theorem mem_sourceIds_afterOneSource (s : EnergySource) (co : Nat) (now : Int) (st : DBState)
    (sid : String) :
    sid ∈ (if ((s.attributes.map (·.values)).getD []).length > 0 then
        upsertEnergyValues ((s.attributes.map (·.values)).getD [])
          (upsertSourceRow s co now st).1.oid now (upsertSourceRow s co now st).2
      else (upsertSourceRow s co now st).2).sourceIds ↔
      sid ∈ st.sourceIds ∨ sid = s.id.getD "" := by
  split
  · rw [sourceIds_upsertEnergyValues]
    exact mem_sourceIds_upsertSourceRow s co now st sid
  · exact mem_sourceIds_upsertSourceRow s co now st sid

theorem mem_sourceIds_processSources (catId : String) (co : Nat) (now : Int) (sid : String) :
    ∀ (l : List EnergySource) (st : DBState),
      sid ∈ (processSources catId co now l st).sourceIds ↔
        sid ∈ st.sourceIds ∨
          ∃ s ∈ l, sourceQualifies catId s = true ∧ s.id.getD "" = sid := by
  intro l
  induction l with
  | nil => intro st; simp [processSources]
  | cons s rest ih =>
    intro st
    by_cases hq : sourceQualifies catId s = true
    · simp only [processSources]
      rw [if_pos hq, ih, mem_sourceIds_afterOneSource]
      simp only [List.mem_cons]
      constructor
      · rintro ((h | rfl) | ⟨x, hx, hxq, hxid⟩)
        · exact Or.inl h
        · exact Or.inr ⟨s, Or.inl rfl, hq, rfl⟩
        · exact Or.inr ⟨x, Or.inr hx, hxq, hxid⟩
      · rintro (h | ⟨x, hx | hx, hxq, hxid⟩)
        · exact Or.inl (Or.inl h)
        · subst hx
          exact Or.inl (Or.inr hxid.symm)
        · exact Or.inr ⟨x, hx, hxq, hxid⟩
    · simp only [processSources]
      rw [if_neg hq, ih]
      simp only [List.mem_cons]
      constructor
      · rintro (h | ⟨x, hx, hxq, hxid⟩)
        · exact Or.inl h
        · exact Or.inr ⟨x, Or.inr hx, hxq, hxid⟩
      · rintro (h | ⟨x, hx | hx, hxq, hxid⟩)
        · exact Or.inl h
        · subst hx
          exact absurd hxq hq
        · exact Or.inr ⟨x, hx, hxq, hxid⟩

theorem sourceQualifies_iff_specShape (catId : String) (hne : catId ≠ "") (s : EnergySource) :
    sourceQualifies catId s = true ↔
      (s.groupId = some catId ∧ truthy s.id = true ∧ truthy s.type = true ∧
       truthy (s.attributes.bind (·.title)) = true ∧
       (s.attributes.bind (·.lastUpdate)).isSome = true) := by
  cases hg : s.groupId with
  | none => simp [sourceQualifies, hg, truthy]
  | some g =>
    simp [sourceQualifies, hg, truthy]
    constructor
    · rintro ⟨⟨⟨⟨⟨-, h1⟩, h2⟩, h3⟩, h4⟩, h5⟩
      exact ⟨h1, h2, h3, h4, h5⟩
    · rintro ⟨h1, h2, h3, h4, h5⟩
      refine ⟨⟨⟨⟨⟨?_, h1⟩, h2⟩, h3⟩, h4⟩, h5⟩
      rw [h1]
      exact hne

theorem headerOk_of_isValidCategory (cat : IncludedItem) (h : isValidCategory cat = true) :
    categoryHeaderOk cat = true := by
  obtain ⟨⟨t, ht, hmem⟩, hid, hti, hlu, -⟩ :=
    (isValidCategory_iff_specCategoryShape cat).mp h
  have htype : truthy cat.type = true := by
    rw [ht]
    simp [truthy, mem_recognized_ne_empty hmem]
  simp only [categoryHeaderOk, Bool.and_eq_true]
  exact ⟨⟨⟨hid, htype⟩, hti⟩, hlu⟩

theorem catId_ne_empty_of_isValidCategory (cat : IncludedItem)
    (h : isValidCategory cat = true) : cat.id.getD "" ≠ "" := by
  obtain ⟨-, hid, -⟩ := (isValidCategory_iff_specCategoryShape cat).mp h
  cases hi : cat.id with
  | none => rw [hi] at hid; simp [truthy] at hid
  | some i =>
    rw [hi] at hid
    simpa [truthy] using hid

/-- C4: starting from a store with no source rows, persisting a
qualifying category stores a source row with a given natural id exactly
when the category's nested content has a fragment whose group id equals
the category's natural id and which carries a natural id (the given
one), a type, a title, and a last-update timestamp; mismatched or
missing group ids are dropped, and the walk is a total function — the
drops raise no error. -/
theorem source_persisted_iff_group_and_fields (cat : IncludedItem) (bo : Nat) (now : Int)
    (st : DBState) (hcat : isValidCategory cat = true) (hs : st.sources = [])
    (sid : String) :
    sid ∈ (upsertCategorySourcesAndValues cat bo now st).sourceIds ↔
      ∃ s ∈ contentList cat,
        (s.groupId = some (cat.id.getD "") ∧ truthy s.id = true ∧ truthy s.type = true ∧
         truthy (s.attributes.bind (·.title)) = true ∧
         (s.attributes.bind (·.lastUpdate)).isSome = true) ∧
        s.id.getD "" = sid := by
  have hhdr := headerOk_of_isValidCategory cat hcat
  have hne := catId_ne_empty_of_isValidCategory cat hcat
  simp only [upsertCategorySourcesAndValues, hhdr, if_true]
  rw [mem_sourceIds_processSources]
  have hcatsrc : (upsertCategoryRow cat bo now st).2.sourceIds = [] := by
    unfold DBState.sourceIds
    rw [(upsertCategoryRow_frame cat bo now st).2.1, hs]
    rfl
  rw [hcatsrc]
  simp only [List.not_mem_nil, false_or]
  constructor
  · rintro ⟨s, hmem, hq, hid⟩
    exact ⟨s, hmem, (sourceQualifies_iff_specShape _ hne s).mp hq, hid⟩
  · rintro ⟨s, hmem, hshape, hid⟩
    exact ⟨s, hmem, (sourceQualifies_iff_specShape _ hne s).mpr hshape, hid⟩

/-- A fully-populated source fragment whose group id matches `cat1`. -/
def witnessSourceOk : EnergySource :=
  { type := some "Hidráulica", id := some "src1", groupId := some "cat1",
    attributes := some
      { title := some "Hidro", description := none, color := none, icon := none,
        magnitude := none, composite := none, lastUpdate := some 5,
        values := [], total := some 100, totalPercentage := some 50 } }

/-- The same fragment under id `src2` but with a mismatched group id. -/
def witnessSourceMismatched : EnergySource :=
  { witnessSourceOk with id := some "src2", groupId := some "other" }

/-- A qualifying category whose content holds one matched and one
mismatched source fragment. -/
def witnessCategory : IncludedItem :=
  { type := some "Renovable", id := some "cat1",
    attributes := some
      { title := some "Ren", lastUpdate := some 5, description := none,
        content := ContentField.arr [witnessSourceOk, witnessSourceMismatched] } }

/-- Witness: persisting `witnessCategory` into an empty store keeps the
matched source and drops the mismatched one. -/
theorem source_persisted_iff_group_and_fields_witness :
    "src1" ∈ (upsertCategorySourcesAndValues witnessCategory 7 0 DBState.empty).sourceIds ∧
      "src2" ∉ (upsertCategorySourcesAndValues witnessCategory 7 0 DBState.empty).sourceIds := by
  constructor
  · refine (source_persisted_iff_group_and_fields witnessCategory 7 0 DBState.empty rfl rfl
      "src1").mpr ?_
    refine ⟨witnessSourceOk, ?_, ⟨rfl, rfl, rfl, rfl, rfl⟩, rfl⟩
    rw [show contentList witnessCategory = [witnessSourceOk, witnessSourceMismatched] from rfl]
    exact List.mem_cons_self _ _
  · intro h
    obtain ⟨s, hmem, hcond, hid⟩ :=
      (source_persisted_iff_group_and_fields witnessCategory 7 0 DBState.empty rfl rfl
        "src2").mp h
    rw [show contentList witnessCategory = [witnessSourceOk, witnessSourceMismatched] from
      rfl] at hmem
    simp only [List.mem_cons, List.not_mem_nil, or_false] at hmem
    rcases hmem with rfl | rfl
    · exact absurd hid (by decide)
    · exact absurd hcond.1 (by decide)

/-! ### C5: global uniqueness of category natural ids, and re-linking -/

/-- The natural ids of the stored category rows. -/
def DBState.categoryIds (st : DBState) : List String := st.categories.map (·.categoryId)

theorem categoryIds_upsertCategoryRow_some (cat : IncludedItem) (bo : Nat) (now : Int)
    (st : DBState) (c : CategoryRow)
    (hf : st.categories.find? (fun x => x.categoryId == cat.id.getD "") = some c) :
    (upsertCategoryRow cat bo now st).2.categoryIds = st.categoryIds := by
  have hc := List.find?_some hf
  rw [beq_iff_eq] at hc
  simp only [upsertCategoryRow, hf, DBState.categoryIds, List.map_map]
  refine List.map_congr_left ?_
  intro x _
  by_cases hx : x.categoryId == cat.id.getD ""
  · simp only [Function.comp_apply, hx, if_true]
    rw [beq_iff_eq] at hx
    show c.categoryId = x.categoryId
    rw [hc, hx]
  · simp only [Function.comp_apply, hx]
    simp

theorem nodup_categoryIds_upsertCategoryRow (cat : IncludedItem) (bo : Nat) (now : Int)
    (st : DBState) (hn : st.categoryIds.Nodup) :
    (upsertCategoryRow cat bo now st).2.categoryIds.Nodup := by
  cases hf : st.categories.find? (fun x => x.categoryId == cat.id.getD "") with
  | some c => rw [categoryIds_upsertCategoryRow_some cat bo now st c hf]; exact hn
  | none =>
    have hnot : cat.id.getD "" ∉ st.categoryIds := by
      intro hmem
      obtain ⟨x, hx, hxk⟩ := List.mem_map.mp hmem
      exact absurd (by simp [hxk] : (x.categoryId == cat.id.getD "") = true)
        (by simpa using List.find?_eq_none.mp hf x hx)
    simp only [upsertCategoryRow, hf, DBState.categoryIds, List.map_append]
    rw [List.nodup_append]
    refine ⟨hn, by simp, ?_⟩
    intro a ha hb
    simp only [List.map_cons, List.map_nil, List.mem_singleton] at hb
    subst hb
    exact hnot ha

theorem categoryIds_nodup_upsertCSV (cat : IncludedItem) (bo : Nat) (now : Int) (st : DBState)
    (hn : st.categoryIds.Nodup) :
    (upsertCategorySourcesAndValues cat bo now st).categoryIds.Nodup := by
  by_cases hh : categoryHeaderOk cat = true
  · have hcats : (upsertCategorySourcesAndValues cat bo now st).categories =
        (upsertCategoryRow cat bo now st).2.categories := by
      simp only [upsertCategorySourcesAndValues, hh, if_true]
      exact (processSources_frame _ _ _ _ _).2
    unfold DBState.categoryIds
    rw [hcats]
    exact nodup_categoryIds_upsertCategoryRow cat bo now st hn
  · unfold DBState.categoryIds
    simp only [upsertCategorySourcesAndValues, hh]
    simpa [DBState.categoryIds] using hn

theorem categoryIds_nodup_catFold (bo : Nat) (now : Int) :
    ∀ (cats : List IncludedItem) (st : DBState), st.categoryIds.Nodup →
      (cats.foldl (fun s c => upsertCategorySourcesAndValues c bo now s) st).categoryIds.Nodup := by
  intro cats
  induction cats with
  | nil => intro st hn; exact hn
  | cons c rest ih =>
    intro st hn
    simp only [List.foldl_cons]
    exact ih _ (categoryIds_nodup_upsertCSV c bo now st hn)

theorem upsertPowerGridBalance_ok_frame (resp : REEApiResponse) (d now : Int) (st : DBState)
    (brow : BalanceRow) (st1 : DBState)
    (h : upsertPowerGridBalance resp d now st = .ok (brow, st1)) :
    st1.categories = st.categories ∧ st1.sources = st.sources ∧ st1.values = st.values := by
  by_cases hc : (!(truthy resp.dataId) || !(truthy resp.dataTitle) ||
      !resp.dataLastUpdate.isSome) = true
  · unfold upsertPowerGridBalance at h
    rw [if_pos hc] at h
    cases h
  · have hc2 : (!(truthy resp.dataId) || !(truthy resp.dataTitle) ||
        !resp.dataLastUpdate.isSome) = false := Bool.eq_false_iff.mpr hc
    simp only [upsertPowerGridBalance, hc2, Bool.false_eq_true, if_false] at h
    cases hf : st.balances.find?
        (fun b => b.balanceId == resp.dataId.getD "" && b.balanceDate == startOfDay d) with
    | some b =>
      rw [hf] at h
      cases h
      exact ⟨rfl, rfl, rfl⟩
    | none =>
      rw [hf] at h
      cases h
      exact ⟨rfl, rfl, rfl⟩

theorem categoryIds_nodup_storeREEData (resp : REEApiResponse) (d now : Int) (st st2 : DBState)
    (h : storeREEData resp d now st = .ok st2) (hn : st.categoryIds.Nodup) :
    st2.categoryIds.Nodup := by
  unfold storeREEData at h
  split at h
  · cases h
  · split at h
    · cases h
    · rename_i brow st1 heq
      cases h
      refine categoryIds_nodup_catFold _ _ _ _ ?_
      unfold DBState.categoryIds
      rw [(upsertPowerGridBalance_ok_frame resp d now st brow st1 heq).1]
      exact hn

theorem categoryIds_nodup_ingestAll :
    ∀ (ops : List (REEApiResponse × Int × Int)) (st : DBState), st.categoryIds.Nodup →
      (ingestAll ops st).categoryIds.Nodup := by
  intro ops
  induction ops with
  | nil => intro st hn; exact hn
  | cons op rest ih =>
    intro st hn
    obtain ⟨r, d, n⟩ := op
    simp only [ingestAll]
    cases h : storeREEData r d n st with
    | ok st2 => exact ih st2 (categoryIds_nodup_storeREEData r d n st st2 h hn)
    | error e => exact ih st hn

theorem countP_key_eq_one {l : List CategoryRow} (hn : (l.map (·.categoryId)).Nodup)
    {c : CategoryRow} (hc : c ∈ l) {cid : String} (hkey : c.categoryId = cid) :
    l.countP (fun x => x.categoryId == cid) = 1 := by
  have h1 : (l.map (·.categoryId)).count cid = 1 :=
    List.count_eq_one_of_mem hn (List.mem_map.mpr ⟨c, hc, hkey⟩)
  calc l.countP (fun x => x.categoryId == cid)
      = (l.map (·.categoryId)).countP (· == cid) := by rw [List.countP_map]; rfl
    _ = (l.map (·.categoryId)).count cid := rfl
    _ = 1 := h1

theorem countP_key_congr {l1 l2 : List CategoryRow}
    (h : l1.map (·.categoryId) = l2.map (·.categoryId)) (cid : String) :
    l1.countP (fun x => x.categoryId == cid) = l2.countP (fun x => x.categoryId == cid) := by
  calc l1.countP (fun x => x.categoryId == cid)
      = (l1.map (·.categoryId)).countP (· == cid) := by rw [List.countP_map]; rfl
    _ = (l2.map (·.categoryId)).countP (· == cid) := by rw [h]
    _ = l2.countP (fun x => x.categoryId == cid) := by rw [List.countP_map]; rfl

theorem upsertCategoryRow_relink (cat : IncludedItem) (bo : Nat) (now : Int) (st : DBState)
    (hn : st.categoryIds.Nodup) :
    ((upsertCategoryRow cat bo now st).2.categories.filter
        (fun c => c.categoryId == cat.id.getD "")).length = 1 ∧
      ∀ c ∈ (upsertCategoryRow cat bo now st).2.categories,
        c.categoryId = cat.id.getD "" → c.balanceOid = bo := by
  cases hf : st.categories.find? (fun x => x.categoryId == cat.id.getD "") with
  | some c =>
    have hc := List.find?_some hf
    rw [beq_iff_eq] at hc
    have hmem := List.mem_of_find?_eq_some hf
    constructor
    · rw [← List.countP_eq_length_filter]
      have hmap : (upsertCategoryRow cat bo now st).2.categories.map (·.categoryId) =
          st.categories.map (·.categoryId) :=
        categoryIds_upsertCategoryRow_some cat bo now st c hf
      rw [countP_key_congr hmap]
      exact countP_key_eq_one (by exact hn) hmem hc
    · intro x hx hxk
      simp only [upsertCategoryRow, hf] at hx
      obtain ⟨y, hy, hfy⟩ := List.mem_map.mp hx
      by_cases hyk : (y.categoryId == cat.id.getD "") = true
      · rw [if_pos hyk] at hfy
        rw [← hfy]
        rfl
      · rw [if_neg hyk] at hfy
        subst hfy
        exact absurd (by simp [hxk] : (y.categoryId == cat.id.getD "") = true) hyk
  | none =>
    have hnone := List.find?_eq_none.mp hf
    simp only [upsertCategoryRow, hf]
    constructor
    · rw [List.filter_append]
      have h1 : st.categories.filter (fun c => c.categoryId == cat.id.getD "") = [] := by
        rw [List.filter_eq_nil_iff]
        intro x hx
        simpa using hnone x hx
      rw [h1]
      simp
    · intro x hx hxk
      rcases List.mem_append.mp hx with hx1 | hx1
      · exact absurd (by simp [hxk] : (x.categoryId == cat.id.getD "") = true)
          (by simpa using hnone x hx1)
      · simp only [List.mem_singleton] at hx1
        subst hx1
        rfl

/-- C5: (1) starting from an empty store, after any sequence of
ingestion runs every category natural id names at most one stored row
(the id list is duplicate-free); (2) persisting a category whose header
fields are present into any store with duplicate-free category ids
leaves exactly one row with that natural id, linked to the balance of
this (most recent) ingestion — an existing row is updated and re-linked
in place, never duplicated. -/
theorem category_globally_unique_and_relinked :
    (∀ ops : List (REEApiResponse × Int × Int),
      (ingestAll ops DBState.empty).categoryIds.Nodup) ∧
    (∀ (st : DBState) (cat : IncludedItem) (bo : Nat) (now : Int),
      st.categoryIds.Nodup → categoryHeaderOk cat = true →
      ((upsertCategorySourcesAndValues cat bo now st).categories.filter
          (fun c => c.categoryId == cat.id.getD "")).length = 1 ∧
      ∀ c ∈ (upsertCategorySourcesAndValues cat bo now st).categories,
        c.categoryId = cat.id.getD "" → c.balanceOid = bo) := by
  constructor
  · intro ops
    exact categoryIds_nodup_ingestAll ops DBState.empty (by simp [DBState.categoryIds, DBState.empty])
  · intro st cat bo now hn hh
    have hcats : (upsertCategorySourcesAndValues cat bo now st).categories =
        (upsertCategoryRow cat bo now st).2.categories := by
      simp only [upsertCategorySourcesAndValues, hh, if_true]
      exact (processSources_frame _ _ _ _ _).2
    rw [hcats]
    exact upsertCategoryRow_relink cat bo now st hn

/-- A stored category row for `cat1` linked to balance oid 0. -/
def witnessCatRow : CategoryRow := ⟨0, "cat1", "Renovable", "Ren", none, 0, 0, 0, 0⟩

/-- A store already holding the `cat1` row. -/
def witnessStateOneCat : DBState := ⟨[], [witnessCatRow], [], [], 1⟩

/-- Witness: re-ingesting `cat1` under balance oid 9 leaves exactly one
`cat1` row, now linked to 9. -/
theorem category_globally_unique_and_relinked_witness :
    ((upsertCategorySourcesAndValues witnessCategory 9 0 witnessStateOneCat).categories.filter
        (fun c => c.categoryId == witnessCategory.id.getD "")).length = 1 ∧
      ∀ c ∈ (upsertCategorySourcesAndValues witnessCategory 9 0 witnessStateOneCat).categories,
        c.categoryId = witnessCategory.id.getD "" → c.balanceOid = 9 :=
  category_globally_unique_and_relinked.2 witnessStateOneCat witnessCategory 9 0
    (by simp [DBState.categoryIds, witnessStateOneCat, witnessCatRow]) rfl

/-! ### C6: value upsert by (source, timestamp) -/

/-- A minimal payload holding one balance, one category, one source and
one time-series point `(v, p)` at timestamp `ts`. -/
def mkValuePayload (v p ts : Int) (bid cid sid : String) : REEApiResponse :=
  { data := some
      { type := none, id := some bid,
        attributes := some { title := some "T", lastUpdate := some 1, description := none },
        cacheControl := none },
    included := [
      { type := some "Renovable", id := some cid,
        attributes := some
          { title := some "C", lastUpdate := some 1, description := none,
            content := ContentField.arr [
              { type := some "S", id := some sid, groupId := some cid,
                attributes := some
                  { title := some "S", description := none, color := none, icon := none,
                    magnitude := none, composite := none, lastUpdate := some 1,
                    values := [⟨some v, some p, some ts⟩],
                    total := some 0, totalPercentage := some 0 } } ] } } ] }

/-- The store after ingesting `mkValuePayload` into an empty store. -/
def valueState1 (v p ts d n : Int) (bid cid sid : String) : DBState :=
  ⟨[⟨0, bid, startOfDay d, "balance", "T", none, 1, n, n, false, none⟩],
   [⟨1, cid, "Renovable", "C", none, 1, n, n, 0⟩],
   [⟨2, sid, cid, "S", "S", none, none, none, none, false, 1, 0, 0, n, n, 1⟩],
   [⟨3, v, p, ts, n, n, 2⟩], 4⟩

/-- The store after the second ingestion: every row updated in place,
no new rows, the value row now carrying the second payload's numbers. -/
def valueState2 (v p ts d n1 n2 : Int) (bid cid sid : String) : DBState :=
  ⟨[⟨0, bid, startOfDay d, "balance", "T", none, 1, n1, n2, false, none⟩],
   [⟨1, cid, "Renovable", "C", none, 1, n1, n2, 0⟩],
   [⟨2, sid, cid, "S", "S", none, none, none, none, false, 1, 0, 0, n1, n2, 1⟩],
   [⟨3, v, p, ts, n1, n2, 2⟩], 4⟩

theorem storeREEData_mkValue_first (v1 p1 ts d n1 : Int) (bid cid sid : String)
    (hb : bid ≠ "") (hc : cid ≠ "") (hs : sid ≠ "") :
    storeREEData (mkValuePayload v1 p1 ts bid cid sid) d n1 DBState.empty =
      .ok (valueState1 v1 p1 ts d n1 bid cid sid) := by
  simp [storeREEData, mkValuePayload, DBState.empty, REEApiResponse.dataId,
    REEApiResponse.dataTitle, REEApiResponse.dataLastUpdate, truthy, hb, hc, hs,
    upsertPowerGridBalance, filterValidCategories, isValidCategory, recognizedCategoryTypes,
    upsertCategorySourcesAndValues, categoryHeaderOk, upsertCategoryRow, updatedCategoryRow,
    contentList, processSources, sourceQualifies, upsertSourceRow, upsertEnergyValues,
    validValue, upsertValueRow, valueState1]

theorem storeREEData_mkValue_second (v1 p1 v2 p2 ts d n1 n2 : Int) (bid cid sid : String)
    (hb : bid ≠ "") (hc : cid ≠ "") (hs : sid ≠ "") :
    storeREEData (mkValuePayload v2 p2 ts bid cid sid) d n2
        (valueState1 v1 p1 ts d n1 bid cid sid) =
      .ok (valueState2 v2 p2 ts d n1 n2 bid cid sid) := by
  simp [storeREEData, mkValuePayload, REEApiResponse.dataId,
    REEApiResponse.dataTitle, REEApiResponse.dataLastUpdate, truthy, hb, hc, hs,
    upsertPowerGridBalance, filterValidCategories, isValidCategory, recognizedCategoryTypes,
    upsertCategorySourcesAndValues, categoryHeaderOk, upsertCategoryRow, updatedCategoryRow,
    contentList, processSources, sourceQualifies, upsertSourceRow, upsertEnergyValues,
    validValue, upsertValueRow, valueState1, valueState2]

/-- C6: ingesting two payloads that differ only in the value/percentage
for the same source S and timestamp T (first `(v1, p1)`, then
`(v2, p2)`) leaves exactly one stored Value row, keyed by S's internal
id and T, carrying the second payload's value and percentage — the
point is upserted in place, not appended. -/
theorem value_upsert_by_timestamp (v1 p1 v2 p2 ts d n1 n2 : Int) (bid cid sid : String)
    (hb : bid ≠ "") (hc : cid ≠ "") (hs : sid ≠ "") :
    ∃ st1 st2,
      storeREEData (mkValuePayload v1 p1 ts bid cid sid) d n1 DBState.empty = .ok st1 ∧
      storeREEData (mkValuePayload v2 p2 ts bid cid sid) d n2 st1 = .ok st2 ∧
      st2.sources.map (·.sourceId) = [sid] ∧
      st2.values.map (fun w => (w.sourceOid, w.datetime, w.value, w.percentage)) =
        [(2, ts, v2, p2)] :=
  ⟨valueState1 v1 p1 ts d n1 bid cid sid, valueState2 v2 p2 ts d n1 n2 bid cid sid,
   storeREEData_mkValue_first v1 p1 ts d n1 bid cid sid hb hc hs,
   storeREEData_mkValue_second v1 p1 v2 p2 ts d n1 n2 bid cid sid hb hc hs, rfl, rfl⟩

/-- Witness: the value-upsert theorem at concrete numbers and ids. -/
theorem value_upsert_by_timestamp_witness :
    ∃ st1 st2,
      storeREEData (mkValuePayload 10 50 7 "bal1" "cat1" "src1") 0 100 DBState.empty =
        .ok st1 ∧
      storeREEData (mkValuePayload 20 60 7 "bal1" "cat1" "src1") 0 200 st1 = .ok st2 ∧
      st2.sources.map (·.sourceId) = ["src1"] ∧
      st2.values.map (fun w => (w.sourceOid, w.datetime, w.value, w.percentage)) =
        [(2, 7, 20, 60)] :=
  value_upsert_by_timestamp 10 50 20 60 7 0 100 200 "bal1" "cat1" "src1"
    (by decide) (by decide) (by decide)

/-! ### C8: retention cleanup -/

/-- A balance created 400 days before the scenario's "now". -/
def oldBal : BalanceRow := ⟨2, "b", 0, "balance", "t", none, 0, 0, 0, false, none⟩

/-- A balance created 100 days before the scenario's "now". -/
def midBal : BalanceRow := { oldBal with oid := 1, createdAt := 300 * msPerDay }

/-- A balance created at the scenario's "now". -/
def newBal : BalanceRow := { oldBal with oid := 0, createdAt := 400 * msPerDay }

/-- A category owned by the day-400 balance. -/
def oldCat : CategoryRow := ⟨10, "catOld", "Renovable", "x", none, 0, 0, 0, 2⟩

/-- A category owned by the day-0 balance. -/
def keptCat : CategoryRow := ⟨11, "catNew", "Demanda", "x", none, 0, 0, 0, 0⟩

/-- A source under the day-400 balance's category. -/
def oldSrc : SourceRow :=
  ⟨20, "srcOld", "catOld", "T", "t", none, none, none, none, false, 0, 0, 0, 0, 0, 10⟩

/-- A value under that source. -/
def oldVal : ValueRow := ⟨30, 5, 50, 0, 0, 0, 20⟩

/-- The spec's retention scenario: balances created 0, 100 and 400 days
ago, with a category/source/value cascade under the day-400 one. -/
def retentionState : DBState :=
  ⟨[newBal, midBal, oldBal], [oldCat, keptCat], [oldSrc], [oldVal], 40⟩

/-- C8: `cleanupOldData` deletes exactly the balances created strictly
before now minus the retention window and returns their count (deleted
plus kept adds up to the original row count); a category survives
exactly when its owning balance is not among the deleted ones
(cascade); and in the spec's scenario — balances created 0, 100 and 400
days ago, retention 365 — exactly the day-400 balance is removed,
cascading away its category, source and value. -/
theorem cleanup_purges_exactly_older (daysToKeep now : Int) (st : DBState) :
    (∀ b : BalanceRow, b ∈ (cleanupOldData daysToKeep now st).2.balances ↔
      b ∈ st.balances ∧ ¬(b.createdAt < now - daysToKeep * msPerDay)) ∧
    (cleanupOldData daysToKeep now st).1 =
      (st.balances.filter (fun b => b.createdAt < now - daysToKeep * msPerDay)).length ∧
    (cleanupOldData daysToKeep now st).1 +
        (cleanupOldData daysToKeep now st).2.balances.length = st.balances.length ∧
    (∀ c : CategoryRow, c ∈ (cleanupOldData daysToKeep now st).2.categories ↔
      c ∈ st.categories ∧ ∀ b ∈ st.balances,
        b.createdAt < now - daysToKeep * msPerDay → c.balanceOid ≠ b.oid) ∧
    (cleanupOldData 365 (400 * msPerDay) retentionState).1 = 1 ∧
    (cleanupOldData 365 (400 * msPerDay) retentionState).2 =
      ⟨[newBal, midBal], [keptCat], [], [], 40⟩ := by
  refine ⟨?_, rfl, (List.length_eq_length_filter_add _).symm, ?_, rfl, rfl⟩
  · intro b
    simp [cleanupOldData, List.mem_filter]
  · intro c
    simp only [cleanupOldData, List.mem_filter]
    simp
    intro _
    constructor
    · intro h b hb hold heq
      exact h b hb hold heq.symm
    · intro h b hb hold heq
      exact h b hb hold heq.symm

end PowerGrid
